import Mathlib

/-!
Shallow embedding of the rate-limiter repository's decision engine:
the Redis-backed sliding/fixed-window counters (`RedisService`), the
cache layer with circuit breaker and in-memory fallback
(`CacheService`, `CircuitBreaker`), the middleware composition
(`RateLimiterMiddleware`), and the identifier/key utilities
(`HeadersUtil`).  Timestamps are milliseconds modelled as `Int`
(JavaScript numbers are exact on this range); counts are `Nat`.
Redis state reached through the Lua scripts is modelled explicitly:
a sorted set becomes a list of (member, score) pairs plus a TTL field.
-/

namespace RateLimiter

/-- Ceiling of the rational `a / b` for a positive integer divisor `b`,
as computed by `Math.ceil(a / b)` in JS and `math.ceil(a / b)` in Lua. -/
def intCeilDiv (a b : Int) : Int := (a + b - 1) / b

/-- Rate-limit rule record (`RateLimitRule` in src/src/types/index.ts).
The `keyGenerator` and `skipIf` callbacks are not part of the record here:
the middleware model receives their effect (per-rule identifier, skipped
rules dropped to `none`) as explicit inputs. -/
inductive Algorithm
  | fixed
  | sliding
deriving DecidableEq, Repr

structure RateLimitRule where
  id : String
  windowMs : Int
  maxRequests : Nat
  message : Option String := none
  statusCode : Option Nat := none
  algorithm : Option Algorithm := none
deriving DecidableEq, Repr

/-- Stored counter payload (`CacheEntry` in src/src/types/index.ts). -/
structure CacheEntry where
  count : Nat
  resetTime : Int
  createdAt : Int
deriving DecidableEq, Repr

/-- Decision payload (`RateLimitInfo` in src/src/types/index.ts).
`remainingRequests` is kept as `Int` to mirror `Math.max(0, ...)` on JS
numbers; `retryAfter` is `none` exactly when the field is `undefined`. -/
structure RateLimitInfo where
  totalRequests : Nat
  remainingRequests : Int
  resetTime : Int
  retryAfter : Option Int := none
deriving DecidableEq, Repr

/-- Full decision (`RateLimitResult` in src/src/types/index.ts). -/
structure RateLimitResult where
  allowed : Bool
  info : RateLimitInfo
  rule : RateLimitRule
deriving DecidableEq, Repr

/-- Result payload returned by the counter scripts: a `CacheEntry`
plus the `allowed` flag (`CacheEntry & \x7b allowed: boolean \x7d`). -/
structure SWResult where
  count : Nat
  resetTime : Int
  createdAt : Int
  allowed : Bool
deriving DecidableEq, Repr

/-- State of one Redis sorted set: members with their scores, in insertion
order, together with the key's TTL in seconds (`none` when no TTL is set).
`ZADD` appends a fresh member or rescores an existing one. -/
structure ZSetState where
  entries : List (String × Int)
  ttl : Option Int := none
deriving DecidableEq, Repr

/-- Effect of `ZADD key score member` on the member list. -/
def zAdd (member : String) (score : Int) (es : List (String × Int)) :
    List (String × Int) :=
  if es.any (fun e => e.1 == member) then
    es.map (fun e => if e.1 == member then (e.1, score) else e)
  else
    es ++ [(member, score)]

/-- Effect of `ZREMRANGEBYSCORE key -inf windowStart`: drop every member
whose score is at most `windowStart`. -/
def zPurge (windowStart : Int) (es : List (String × Int)) :
    List (String × Int) :=
  es.filter (fun e => windowStart < e.2)

/-- The Lua script of `RedisService.slidingWindowCheck`
(src/unnamed/part_007 lines 309-377): purge scores at most
`now - windowMs`, read the cardinality, decide `allowed`, conditionally
`ZADD` a fresh request token at score `now`, and `EXPIRE` the key to
`ceil(windowMs / 1000)` seconds when any member remains.  `requestId`
stands for the random token the JS caller passes to the script. -/
def slidingWindowCheck (st : ZSetState) (rule : RateLimitRule) (now : Int)
    (increment : Bool) (requestId : String) : SWResult × ZSetState :=
  let windowStart := now - rule.windowMs
  let resetTime := now + rule.windowMs
  let purged := zPurge windowStart st.entries
  let currentCount := purged.length
  let allowed := decide (currentCount < rule.maxRequests)
  let entries' := if increment && allowed then zAdd requestId now purged else purged
  let finalCount := if increment && allowed then currentCount + 1 else currentCount
  let ttl' := if 0 < finalCount then some (intCeilDiv rule.windowMs 1000) else st.ttl
  (⟨finalCount, resetTime, now, allowed⟩, ⟨entries', ttl'⟩)

/-- `CacheService.buildResult` (src/unnamed/part_007 lines 470-482):
`remaining = Math.max(0, rule.maxRequests - data.count)` and
`retryAfter = allowed ? undefined : Math.ceil((data.resetTime - Date.now()) / 1000)`. -/
def buildResult (data : CacheEntry) (rule : RateLimitRule) (allowed : Bool)
    (now : Int) : RateLimitResult :=
  let remaining : Int := max 0 ((rule.maxRequests : Int) - (data.count : Int))
  let retryAfter : Option Int :=
    if allowed then none else some (intCeilDiv (data.resetTime - now) 1000)
  ⟨allowed, ⟨data.count, remaining, data.resetTime, retryAfter⟩, rule⟩

/-- `CacheService.buildDefaultResult` (src/unnamed/part_007 lines 484-496):
the fail-open (or fail-closed) decision produced without consulting any store. -/
def buildDefaultResult (rule : RateLimitRule) (allowed : Bool) (now : Int) :
    RateLimitResult :=
  let resetTime := now + rule.windowMs
  ⟨allowed,
   ⟨0, (rule.maxRequests : Int), resetTime,
    if allowed then none else some (intCeilDiv rule.windowMs 1000)⟩,
   rule⟩

/-- Circuit-breaker status (src/src/utils/circuit-breaker.ts). -/
inductive CBStatus
  | Closed
  | Open
  | HalfOpen
deriving DecidableEq, Repr

/-- `CircuitBreaker` instance state together with its constructor
parameters (`failureThreshold` default 5, `recoveryTimeout` default
30000 ms).  Fields `failures = 0`, `lastFailureTime = 0`,
`state = CLOSED` are the class initialisers. -/
structure CircuitBreaker where
  failures : Nat := 0
  lastFailureTime : Int := 0
  state : CBStatus := .Closed
  failureThreshold : Nat := 5
  recoveryTimeout : Int := 30000
deriving DecidableEq, Repr

/-- Freshly constructed breaker with default parameters. -/
def CircuitBreaker.initial : CircuitBreaker := {}

/-- `CircuitBreaker.onSuccess`: reset failures, close. -/
def CircuitBreaker.onSuccess (cb : CircuitBreaker) : CircuitBreaker :=
  { cb with failures := 0, state := .Closed }

/-- `CircuitBreaker.onFailure` at wall-clock `now`: count the failure,
record its time, open once the threshold is reached. -/
def CircuitBreaker.onFailure (cb : CircuitBreaker) (now : Int) : CircuitBreaker :=
  let f := cb.failures + 1
  { cb with
    failures := f
    lastFailureTime := now
    state := if cb.failureThreshold ≤ f then .Open else cb.state }

/-- Which branch of `execute` produced the returned value:
the primary operation succeeded, the fallback ran after the primary
threw, or the fallback ran without the primary being invoked at all. -/
inductive ExecRoute
  | primarySuccess
  | fallbackAfterFailure
  | fallbackSkip
deriving DecidableEq, Repr

/-- State/routing core of `CircuitBreaker.execute`
(src/src/utils/circuit-breaker.ts lines 12-29): `primaryOk` tells
whether the awaited primary operation would resolve (`true`) or reject
(`false`). -/
def CircuitBreaker.step (cb : CircuitBreaker) (now : Int) (primaryOk : Bool) :
    ExecRoute × CircuitBreaker :=
  if cb.state = .Open ∧ ¬ cb.recoveryTimeout < now - cb.lastFailureTime then
    (.fallbackSkip, cb)
  else
    let cb1 :=
      if cb.state = .Open then { cb with state := .HalfOpen } else cb
    if primaryOk then (.primarySuccess, cb1.onSuccess)
    else (.fallbackAfterFailure, cb1.onFailure now)

/-- `CircuitBreaker.execute` at the value level: the primary result is
`some v` when the operation would resolve with `v` and `none` when it
would reject; `fb` is the fallback's value. -/
def CircuitBreaker.run {α : Type} (cb : CircuitBreaker) (now : Int)
    (primary : Option α) (fb : α) : α × ExecRoute × CircuitBreaker :=
  let (route, cb') := cb.step now primary.isSome
  match route, primary with
  | .primarySuccess, some v => (v, .primarySuccess, cb')
  | r, _ => (fb, r, cb')

/-- Breaker states reachable from a freshly constructed instance by any
sequence of `execute` calls (arbitrary call times and outcomes). -/
inductive CBReachable : CircuitBreaker → Prop
  | init (thr : Nat) (rec : Int) :
      CBReachable { failureThreshold := thr, recoveryTimeout := rec }
  | exec {cb : CircuitBreaker} (now : Int) (primaryOk : Bool)
      (h : CBReachable cb) : CBReachable (cb.step now primaryOk).2

/-- The in-memory fallback admission check
(`CacheService.checkRateLimitInMemory`, src/unnamed/part_007 lines
547-564): reinitialise absent or expired entries to count 1 (resetTime
`now + windowMs` for sliding rules, end of the aligned window
otherwise), else increment unconditionally; allow iff the new count is
at most `maxRequests`; store the new entry in the local cache. -/
def checkRateLimitInMemory (existing : Option CacheEntry)
    (rule : RateLimitRule) (now : Int) : RateLimitResult × CacheEntry :=
  let fresh : CacheEntry :=
    let resetTime :=
      if rule.algorithm = some .sliding then now + rule.windowMs
      else now / rule.windowMs * rule.windowMs + rule.windowMs
    ⟨1, resetTime, now⟩
  let data : CacheEntry :=
    match existing with
    | none => fresh
    | some e => if e.resetTime ≤ now then fresh else { e with count := e.count + 1 }
  let allowed := decide (data.count ≤ rule.maxRequests)
  (buildResult data rule allowed now, data)

/-- `CacheService.checkRateLimit` (src/unnamed/part_007 lines 441-458):
route through the circuit breaker; the primary branch runs
`slidingWindowCheck(key, rule, true)` and builds a decision from it, the
fallback branch consults the in-memory store when
`enableInMemoryFallback` is set and otherwise returns the fail-open
`buildDefaultResult(rule, true)`.  `redisOk = false` models the primary
operation rejecting.  Returns the decision, the breaker state, the
sorted-set state, and the local-cache entry for this key. -/
def checkRateLimit (cb : CircuitBreaker) (zst : ZSetState) (redisOk : Bool)
    (localEntry : Option CacheEntry) (enableInMemoryFallback : Bool)
    (rule : RateLimitRule) (now : Int) (requestId : String) :
    RateLimitResult × CircuitBreaker × ZSetState × Option CacheEntry :=
  let primary : Option (RateLimitResult × ZSetState) :=
    if redisOk then
      let (d, zst') := slidingWindowCheck zst rule now true requestId
      some (buildResult ⟨d.count, d.resetTime, d.createdAt⟩ rule d.allowed now, zst')
    else none
  let (route, cb') := cb.step now primary.isSome
  match route, primary with
  | .primarySuccess, some (res, zst') => (res, cb', zst', localEntry)
  | _, _ =>
      if enableInMemoryFallback then
        let (res, entry') := checkRateLimitInMemory localEntry rule now
        (res, cb', zst, some entry')
      else
        (buildDefaultResult rule true now, cb', zst, localEntry)

/-- The Lua script of `RedisService.incrementCounterFixedWindow`
(src/unnamed/part_007 lines 210-271): read the JSON payload, reset it
when the stored window has passed, deny without incrementing at or above
the limit, otherwise increment; in both cases write the payload back
with TTL `ceil((resetTime - now)/1000)`.  Returns the script's reply,
the stored payload, and the TTL. -/
def incrementCounterFixedWindow (existing : Option CacheEntry)
    (rule : RateLimitRule) (now : Int) : SWResult × CacheEntry × Int :=
  let windowStart := now / rule.windowMs * rule.windowMs
  let resetTime0 := windowStart + rule.windowMs
  let data0 : CacheEntry :=
    match existing with
    | none => ⟨0, resetTime0, now⟩
    | some e => e
  let data := if data0.resetTime ≤ now then (⟨0, resetTime0, now⟩ : CacheEntry) else data0
  if rule.maxRequests ≤ data.count then
    (⟨data.count, data.resetTime, data.createdAt, false⟩, data,
      intCeilDiv (data.resetTime - now) 1000)
  else
    let d : CacheEntry := ⟨data.count + 1, data.resetTime, data.createdAt⟩
    (⟨d.count, d.resetTime, d.createdAt, true⟩, d, intCeilDiv (d.resetTime - now) 1000)

/-- The `reduce` of `RateLimiterMiddleware.middleware`: among the active
results keep the one whose rule has the strictly smallest `maxRequests`,
the earliest winning ties. -/
def tightest (actives : List RateLimitResult) : Option RateLimitResult :=
  match actives with
  | [] => none
  | h :: t =>
      some (t.foldl
        (fun most cur =>
          if cur.rule.maxRequests < most.rule.maxRequests then cur else most) h)

/-- Decision composition of `RateLimiterMiddleware.middleware`
(src/src/middleware/rate-limiter.ts lines 59-85): each element of
`results` is one rule's outcome, `none` when the rule's `skipIf`
predicate fired (`checkRule` returned `null`).  The first blocked active
result wins; otherwise the tightest rule wins; with no active results
the middleware just forwards (`none`). -/
def composeDecision (results : List (Option RateLimitResult)) :
    Option RateLimitResult :=
  let actives := results.filterMap id
  match actives.find? (fun r => !r.allowed) with
  | some blocked => some blocked
  | none => tightest actives

/-- ToInt32 coercion applied by JavaScript's bitwise operators. -/
def jsToInt32 (n : Int) : Int := (n + 2147483648) % 4294967296 - 2147483648

/-- One iteration of `HeadersUtil.hashString`'s loop
(src/unnamed/part_005 lines 530-538):
`hash = ((hash << 5) - hash) + charCode; hash = hash & hash`. -/
def hashStep (h : Int) (c : Char) : Int :=
  jsToInt32 (jsToInt32 (h * 32) - h + (c.toNat : Int))

/-- Digit characters used by JavaScript's `Number.prototype.toString(36)`. -/
def base36Digit (n : Nat) : Char :=
  if n < 10 then Char.ofNat (48 + n) else Char.ofNat (87 + n)

/-- Big-endian base-36 digit expansion, fuelled for structural
recursion (any fuel at least the value is enough). -/
def natToBase36Core : Nat → Nat → List Char → List Char
  | 0, _, acc => acc
  | fuel + 1, n, acc =>
      if n = 0 then acc
      else natToBase36Core fuel (n / 36) (base36Digit (n % 36) :: acc)

/-- `Math.abs(hash).toString(36)` rendering. -/
def natToBase36 (n : Nat) : String :=
  if n = 0 then "0" else ⟨natToBase36Core (n + 1) n []⟩

/-- `HeadersUtil.hashString` (src/unnamed/part_005 lines 530-538),
folded over the string's characters (code units and characters agree on
the inputs of interest). -/
def hashString (s : String) : String :=
  natToBase36 (s.data.foldl hashStep 0).natAbs

/-- The argument `rule.id + rule.windowMs + rule.maxRequests` passed to
`hashString` by `generateRateLimitKey`: JavaScript string concatenation
of the id with the decimal renderings of the numbers. -/
def hashInputString (rule : RateLimitRule) : String :=
  rule.id ++ toString rule.windowMs ++ toString rule.maxRequests

/-- Character class kept by the key sanitiser: `[a-zA-Z0-9._-]`. -/
def isKeyAllowed (c : Char) : Bool :=
  c.isAlphanum || c == '.' || c == '_' || c == '-'

/-- `identifier.replace(/[^a-zA-Z0-9._-]/g, '_')`. -/
def sanitizeKeyIdentifier (s : String) : String :=
  ⟨s.data.map (fun c => if isKeyAllowed c then c else '_')⟩

/-- `HeadersUtil.generateRateLimitKey` (src/unnamed/part_005 lines
524-528): `rl:{rule.id}:{ruleHash}:{sanitizedId}`. -/
def generateRateLimitKey (identifier : String) (rule : RateLimitRule) : String :=
  "rl:" ++ rule.id ++ ":" ++ hashString (hashInputString rule) ++ ":" ++
    sanitizeKeyIdentifier identifier

/-- Character class stripped by `sanitizeIpAddress`:
`[\r\n\t\x00-\x1f\x7f-\x9f]` (the named escapes are inside the first
range already). -/
def isJsControl (c : Char) : Bool :=
  c.toNat ≤ 0x1f || (0x7f ≤ c.toNat && c.toNat ≤ 0x9f)

/-- `ip.replace(/[\r\n\t\x00-\x1f\x7f-\x9f]/g, '')`. -/
def stripControl (s : String) : String :=
  ⟨s.data.filter (fun c => !isJsControl c)⟩

/-- `substring(0, 45)` on code units (all inputs of interest lie in the
basic plane, where code units coincide with characters). -/
def truncate45 (s : String) : String := ⟨s.data.take 45⟩

/-- Whitespace recognised by `trim` (JS also trims a handful of exotic
Unicode spaces, immaterial to the properties proved here). -/
def isAsciiWhitespace (c : Char) : Bool :=
  c == ' ' || c == '\t' || c == '\n' || c == '\r'

/-- JavaScript `String.prototype.trim`. -/
def jsTrim (s : String) : String :=
  ⟨((s.data.dropWhile isAsciiWhitespace).reverse.dropWhile isAsciiWhitespace).reverse⟩

/-- Split a character list at every occurrence of a separator character
(the semantics of `split(sep)` for a one-character separator). -/
def splitOnCharAux (sep : Char) : List Char → List Char → List (List Char)
  | [], cur => [cur.reverse]
  | c :: rest, cur =>
      if c = sep then cur.reverse :: splitOnCharAux sep rest []
      else splitOnCharAux sep rest (c :: cur)

/-- All fields of `s.split(sep)`. -/
def splitOnChar (sep : Char) (s : String) : List (List Char) :=
  splitOnCharAux sep s.data []

/-- `value.split(',')[0]` (the split of a string is never empty). -/
def firstCommaPart (s : String) : String :=
  match splitOnChar ',' s with
  | p :: _ => ⟨p⟩
  | [] => ""

/-- One octet of the IPv4 literal grammar
`25[0-5]|2[0-4][0-9]|[01]?[0-9][0-9]?`. -/
def isOctet (p : List Char) : Bool :=
  match p with
  | [a] => a.isDigit
  | [a, b] => a.isDigit && b.isDigit
  | [a, b, c] =>
      ((a == '0' || a == '1') && b.isDigit && c.isDigit) ||
      (a == '2' && ('0' ≤ b && b ≤ '4') && c.isDigit) ||
      (a == '2' && b == '5' && ('0' ≤ c && c ≤ '5'))
  | _ => false

/-- The anchored IPv4 literal test of `sanitizeIpAddress`: exactly four
dot-separated octets (octets contain no dot, so the regex match
coincides with this split). -/
def isIPv4 (s : String) : Bool :=
  let parts := splitOnChar '.' s
  parts.length == 4 && parts.all isOctet

/-- Hexadecimal digit of the IPv6 grammar. -/
def isHexDigit (c : Char) : Bool :=
  c.isDigit || ('a' ≤ c && c ≤ 'f') || ('A' ≤ c && c ≤ 'F')

/-- One group `[0-9a-fA-F]\x7b1,4\x7d` of the IPv6 grammar. -/
def isHexGroup (p : List Char) : Bool :=
  1 ≤ p.length && p.length ≤ 4 && p.all isHexDigit

/-- The anchored IPv6 literal test of `sanitizeIpAddress`:
`(group:)\x7b7\x7dgroup`, `::1`, or `::`. -/
def isIPv6 (s : String) : Bool :=
  (let parts := splitOnChar ':' s
   parts.length == 8 && parts.all isHexGroup) || s == "::1" || s == "::"

/-- `HeadersUtil.sanitizeIpAddress` (src/unnamed/part_005 lines 512-522):
strip control characters, truncate to 45 units, keep IPv4/IPv6 matches
as well as any other non-empty residue, and substitute `"unknown"` for
an empty residue. -/
def sanitizeIpAddress (ip : String) : String :=
  let s := truncate45 (stripControl ip)
  if isIPv4 s || isIPv6 s then s
  else if s == "" then "unknown" else s

/-- Request metadata consumed by `HeadersUtil.getClientIdentifier`:
the four proxy headers (single-valued; the `Array.isArray` branch takes
the first element, which is the same shape), the
connection/socket/express remote addresses, and the peer port. -/
structure Req where
  forwarded : Option String := none
  realIp : Option String := none
  clientIp : Option String := none
  cfConnectingIp : Option String := none
  connRemoteAddress : Option String := none
  sockRemoteAddress : Option String := none
  reqIp : Option String := none
  remotePort : Option Nat := none
deriving DecidableEq, Repr

/-- JavaScript truthiness of an optional string: absent and empty are
both falsy. -/
def jsTruthy (o : Option String) : Option String :=
  match o with
  | some s => if s = "" then none else some s
  | none => none

/-- `HeadersUtil.getClientIdentifier` (src/unnamed/part_005 lines
478-510): first truthy among forwarded-for (first comma element),
real-ip, client-ip, cf-connecting-ip is trimmed and sanitised;
otherwise the remote address is sanitised, returned bare for loopback
literals and suffixed with `:port` when a truthy peer port is known. -/
def getClientIdentifier (req : Req) : String :=
  match jsTruthy req.forwarded with
  | some f => sanitizeIpAddress (jsTrim (firstCommaPart f))
  | none =>
  match jsTruthy req.realIp with
  | some r => sanitizeIpAddress (jsTrim r)
  | none =>
  match jsTruthy req.clientIp with
  | some c => sanitizeIpAddress (jsTrim c)
  | none =>
  match jsTruthy req.cfConnectingIp with
  | some c => sanitizeIpAddress (jsTrim c)
  | none =>
    let raw :=
      match jsTruthy req.connRemoteAddress with
      | some s => s
      | none =>
        match jsTruthy req.sockRemoteAddress with
        | some s => s
        | none => (jsTruthy req.reqIp).getD "unknown"
    let ip := sanitizeIpAddress raw
    if ip = "::1" ∨ ip = "127.0.0.1" ∨ ip = "localhost" then ip
    else
      match req.remotePort with
      | some p => if p ≠ 0 then ip ++ ":" ++ toString p else ip
      | none => ip

/-- Concrete request whose forwarded-for header is the literal string
`unknown`. -/
def reqUnknownHeader : Req := { forwarded := some "unknown" }

/-- Concrete request with a 50-character remote address and a known
peer port. -/
def reqLongAddr : Req :=
  { connRemoteAddress := some ⟨List.replicate 50 'a'⟩, remotePort := some 12345 }

/-- Process-and-store state touched by the administrative reset: the
distributed store's keys, the cache layer's local map, and the
middleware's throttle map. -/
structure SystemState where
  redis : List (String × ZSetState)
  localCache : List (String × CacheEntry)
  throttle : List (String × Int)
deriving DecidableEq, Repr

/-- `CacheService.resetRateLimit` (src/unnamed/part_007 lines 529-537):
`redis.del(key)` and `localCache.delete(key)`. -/
def cacheServiceResetRateLimit (st : SystemState) (key : String) : SystemState :=
  { st with
    redis := st.redis.filter (fun e => e.1 != key)
    localCache := st.localCache.filter (fun e => e.1 != key) }

/-- `RateLimiterMiddleware.resetRateLimit` (src/src/middleware/
rate-limiter.ts lines 220-236): `if (ruleId)` tests JS truthiness, so a
present, non-empty `ruleId` resets just that rule's key when the rule
is configured; an absent — or empty, hence falsy — `ruleId` resets
every configured rule's key; in every case the identifier's throttle
entry is finally dropped. -/
def middlewareResetRateLimit (rules : List RateLimitRule) (identifier : String)
    (ruleId : Option String) (st : SystemState) : SystemState :=
  let st1 :=
    match jsTruthy ruleId with
    | some rid =>
      match rules.find? (fun (r : RateLimitRule) => r.id == rid) with
      | some rule => cacheServiceResetRateLimit st (generateRateLimitKey identifier rule)
      | none => st
    | none =>
      rules.foldl
        (fun acc rule => cacheServiceResetRateLimit acc (generateRateLimitKey identifier rule))
        st
  { st1 with throttle := st1.throttle.filter (fun e => e.1 != identifier) }

/-- Concrete admitted result for a loose rule, used to instantiate the
composition theorem. -/
def resAllowedLoose : RateLimitResult :=
  ⟨true, ⟨1, 9, 1000, none⟩, ⟨"a", 1000, 10, none, none, none⟩⟩

/-- Concrete denied result for a tight rule, used to instantiate the
composition theorem. -/
def resDeniedTight : RateLimitResult :=
  ⟨false, ⟨3, 0, 1000, some 1⟩, ⟨"b", 1000, 3, none, none, none⟩⟩

/-! ## Theorems -/

/-- Any fold of the pairwise tightest-rule choice yields either the seed
or a list element. -/
theorem pickFold_mem (t : List RateLimitResult) (h : RateLimitResult) :
    t.foldl
        (fun most cur =>
          if cur.rule.maxRequests < most.rule.maxRequests then cur else most) h = h ∨
    t.foldl
        (fun most cur =>
          if cur.rule.maxRequests < most.rule.maxRequests then cur else most) h ∈ t := by
  induction t generalizing h with
  | nil => left; rfl
  | cons a t ih =>
    simp only [List.foldl_cons]
    rcases ih (if a.rule.maxRequests < h.rule.maxRequests then a else h) with h1 | h1
    · rw [h1]
      split
      · right; exact List.mem_cons_self a t
      · left; rfl
    · right; exact List.mem_cons_of_mem a h1

/-- The fold of the pairwise tightest-rule choice is bounded by the seed
and by every list element. -/
theorem pickFold_le (t : List RateLimitResult) (h : RateLimitResult) :
    (t.foldl
        (fun most cur =>
          if cur.rule.maxRequests < most.rule.maxRequests then cur else most)
        h).rule.maxRequests ≤ h.rule.maxRequests ∧
    ∀ r ∈ t,
      (t.foldl
          (fun most cur =>
            if cur.rule.maxRequests < most.rule.maxRequests then cur else most)
          h).rule.maxRequests ≤ r.rule.maxRequests := by
  induction t generalizing h with
  | nil => exact ⟨le_refl _, by simp⟩
  | cons a t ih =>
    simp only [List.foldl_cons]
    obtain ⟨ih1, ih2⟩ := ih (if a.rule.maxRequests < h.rule.maxRequests then a else h)
    constructor
    · refine le_trans ih1 ?_
      split <;> omega
    · intro r hr
      rcases List.mem_cons.mp hr with rfl | hr
      · refine le_trans ih1 ?_
        split <;> omega
      · exact ih2 r hr

/-- A successful `find?` returns the element at the first position whose
predicate holds, every earlier element failing it. -/
theorem find?_first {α : Type} (p : α → Bool) (l : List α) (b : α)
    (h : l.find? p = some b) :
    ∃ i, ∃ hi : i < l.length, l.get ⟨i, hi⟩ = b ∧ p b = true ∧
      ∀ j (hj : j < i), p (l.get ⟨j, Nat.lt_trans hj hi⟩) = false := by
  induction l with
  | nil => simp [List.find?] at h
  | cons a t ih =>
    by_cases hpa : p a = true
    · rw [List.find?_cons_of_pos _ hpa] at h
      refine ⟨0, Nat.succ_pos _, ?_, ?_, ?_⟩
      · simpa using (Option.some.injEq _ _ ▸ h).symm ▸ rfl
      · cases h; exact hpa
      · intro j hj; omega
    · rw [List.find?_cons_of_neg _ (by simpa using hpa)] at h
      obtain ⟨i, hi, hget, hpb, hearlier⟩ := ih h
      refine ⟨i + 1, by simpa using Nat.succ_lt_succ hi, ?_, hpb, ?_⟩
      · simpa using hget
      · intro j hj
        cases j with
        | zero => simpa using hpa
        | succ j => simpa using hearlier j (by omega)

/-- C1: `slidingWindowCheck` with `increment = true` purges members scored
at most `now - windowMs`; with `C` the remaining cardinality it admits and
inserts one fresh token at score `now` when `C < maxRequests` (returning
count `C + 1`), denies without inserting when `C ≥ maxRequests`
(returning count `C`), sets or refreshes the TTL to `ceil(windowMs/1000)`
seconds in both cases, and always returns `resetTime = now + windowMs`. -/
theorem C1_slidingWindowCheck_check_and_increment
    (st : ZSetState) (rule : RateLimitRule) (now : Int) (requestId : String)
    (hmax : 0 < rule.maxRequests)
    (hfresh : ∀ e ∈ zPurge (now - rule.windowMs) st.entries, e.1 ≠ requestId) :
    let purged := zPurge (now - rule.windowMs) st.entries
    let C := purged.length
    let out := slidingWindowCheck st rule now true requestId
    (C < rule.maxRequests →
        out.1.allowed = true ∧
        out.1.count = C + 1 ∧
        out.2.entries = purged ++ [(requestId, now)] ∧
        out.2.entries.length = C + 1) ∧
    (rule.maxRequests ≤ C →
        out.1.allowed = false ∧
        out.1.count = C ∧
        out.2.entries = purged) ∧
    out.2.ttl = some (intCeilDiv rule.windowMs 1000) ∧
    out.1.resetTime = now + rule.windowMs := by
  intro purged C out
  have hz : zAdd requestId now purged = purged ++ [(requestId, now)] := by
    unfold zAdd
    have : purged.any (fun e => e.1 == requestId) = false := by
      simp only [List.any_eq_false]
      intro e he
      simpa using hfresh e he
    simp [this]
  by_cases h : C < rule.maxRequests
  · refine ⟨fun _ => ?_, fun h' => absurd h (by omega), ?_, ?_⟩
    · simp only [out, slidingWindowCheck, purged, C] at *
      simp [h, hz, purged, C]
    · simp only [out, slidingWindowCheck, purged, C] at *
      simp [h, purged, C]
    · simp [out, slidingWindowCheck]
  · refine ⟨fun h' => absurd h' h, fun _ => ?_, ?_, ?_⟩
    · simp only [out, slidingWindowCheck, purged, C] at *
      simp [h, purged, C]
    · have hC : 0 < C := by omega
      simp only [out, slidingWindowCheck, purged, C] at *
      simp [h, hC, purged, C]
    · simp [out, slidingWindowCheck]

/-- Witness for C1 at a concrete input: an empty set, rule with limit 2,
arrival at `now = 5`. -/
theorem C1_witness :
    (0 < 2 ∧
      (∀ e ∈ zPurge (5 - 1000) (ZSetState.mk [] none).entries, e.1 ≠ "t")) ∧
    ((slidingWindowCheck ⟨[], none⟩ ⟨"r", 1000, 2, none, none, none⟩ 5 true "t").1.count = 1 ∧
     (slidingWindowCheck ⟨[], none⟩ ⟨"r", 1000, 2, none, none, none⟩ 5 true "t").2.ttl = some 1) := by
  refine ⟨⟨by decide, by intro e he; simp [zPurge] at he⟩, ?_, ?_⟩
  · have h := C1_slidingWindowCheck_check_and_increment ⟨[], none⟩
      ⟨"r", 1000, 2, none, none, none⟩ 5 "t" (by decide)
      (by intro e he; simp [zPurge] at he)
    exact (h.1 (by simp [zPurge])).2.1
  · have h := C1_slidingWindowCheck_check_and_increment ⟨[], none⟩
      ⟨"r", 1000, 2, none, none, none⟩ 5 "t" (by decide)
      (by intro e he; simp [zPurge] at he)
    exact h.2.2.1

/-- Every breaker state reachable by `execute` calls that is OPEN has at
least `failureThreshold` recorded failures (failures only reset on
success, which closes the breaker). -/
theorem CBReachable.open_failures {cb : CircuitBreaker} (h : CBReachable cb) :
    cb.state = .Open → cb.failureThreshold ≤ cb.failures := by
  induction h with
  | init thr rec => intro hst; exact absurd hst (by simp)
  | @exec cb now primaryOk hr ih =>
    simp only [CircuitBreaker.step]
    split_ifs with h1 h2 h3 h3
    · exact ih
    · intro hst; simp [CircuitBreaker.onSuccess] at hst
    · intro hst; simp [CircuitBreaker.onSuccess] at hst
    · intro hst
      by_cases hthr : cb.failureThreshold ≤ cb.failures + 1
      · simp [CircuitBreaker.onFailure, hthr]
      · simp [CircuitBreaker.onFailure, hthr] at hst
    · intro hst
      by_cases hthr : cb.failureThreshold ≤ cb.failures + 1
      · simp [CircuitBreaker.onFailure, hthr]
      · simp [CircuitBreaker.onFailure, hthr] at hst
        exact absurd hst h3

/-- C2: among the non-inert per-rule results, a request with at least one
denial is decided by the first denier in configured order (so the
returned rule is the first configured denier's); with no denial the
winner is an active result whose rule has the smallest `maxRequests`. -/
theorem C2_compose_first_deny_else_tightest
    (results : List (Option RateLimitResult)) :
    ((∃ r ∈ results.filterMap id, r.allowed = false) →
      ∃ i, ∃ hi : i < (results.filterMap id).length,
        composeDecision results = some ((results.filterMap id).get ⟨i, hi⟩) ∧
        ((results.filterMap id).get ⟨i, hi⟩).allowed = false ∧
        ∀ j (hj : j < i),
          ((results.filterMap id).get ⟨j, Nat.lt_trans hj hi⟩).allowed = true) ∧
    ((∀ r ∈ results.filterMap id, r.allowed = true) →
      results.filterMap id ≠ [] →
      ∃ w, composeDecision results = some w ∧ w ∈ results.filterMap id ∧
        ∀ r ∈ results.filterMap id, w.rule.maxRequests ≤ r.rule.maxRequests) := by
  constructor
  · rintro ⟨r, hr, hden⟩
    have hfind : ∃ b, (results.filterMap id).find? (fun x => !x.allowed) = some b := by
      rcases hb : (results.filterMap id).find? (fun x => !x.allowed) with _ | b
      · rw [List.find?_eq_none] at hb
        exact absurd (by simp [hden]) (hb r hr)
      · exact ⟨b, hb⟩
    obtain ⟨b, hb⟩ := hfind
    obtain ⟨i, hi, hget, hpb, hearlier⟩ := find?_first _ _ _ hb
    refine ⟨i, hi, ?_, ?_, ?_⟩
    · simp only [composeDecision, hb, hget]
    · rw [hget]
      simpa using hpb
    · intro j hj
      simpa using hearlier j hj
  · intro hall hne
    have hfind : (results.filterMap id).find? (fun x => !x.allowed) = none := by
      rw [List.find?_eq_none]
      intro x hx
      simp [hall x hx]
    rcases hl : results.filterMap id with _ | ⟨h, t⟩
    · exact absurd hl hne
    · refine ⟨t.foldl
          (fun most cur =>
            if cur.rule.maxRequests < most.rule.maxRequests then cur else most) h,
        ?_, ?_, ?_⟩
      · rw [hl] at hfind
        simp only [composeDecision, hl, tightest, hfind]
      · rcases pickFold_mem t h with h1 | h1
        · rw [h1]; exact List.mem_cons_self h t
        · exact List.mem_cons_of_mem h h1
      · intro r hr
        rcases List.mem_cons.mp hr with rfl | hr
        · exact (pickFold_le t r).1
        · exact (pickFold_le t h).2 r hr

/-- Witness for C2: with one loose admitted result and one tight denied
result (in that order, with an inert rule between them), the composed
decision is the denier, which sits at active index 1 behind an admitted
result. -/
theorem C2_witness :
    ∃ i, ∃ hi :
      i < ([some resAllowedLoose, none, some resDeniedTight].filterMap id).length,
      composeDecision [some resAllowedLoose, none, some resDeniedTight] =
        some (([some resAllowedLoose, none, some resDeniedTight].filterMap id).get ⟨i, hi⟩) ∧
      (([some resAllowedLoose, none, some resDeniedTight].filterMap id).get ⟨i, hi⟩).allowed
        = false ∧
      ∀ j (hj : j < i),
        (([some resAllowedLoose, none, some resDeniedTight].filterMap
            id).get ⟨j, Nat.lt_trans hj hi⟩).allowed = true :=
  (C2_compose_first_deny_else_tightest
      [some resAllowedLoose, none, some resDeniedTight]).1
    ⟨resDeniedTight, by simp, by simp [resDeniedTight]⟩

/-- C3: the decision built by the cache layer from a store result has
`remainingRequests = max(0, maxRequests - count)`, `retryAfter` absent
when allowed and `ceil((resetTime - now)/1000)` when denied, `resetTime`
propagated verbatim; and when the store result carries
`resetTime = now + windowMs` with a positive window, a denial's
`resetTime` is strictly greater than `now`. -/
theorem C3_buildResult_decision_fields
    (data : CacheEntry) (rule : RateLimitRule) (allowed : Bool) (now : Int) :
    let res := buildResult data rule allowed now
    res.info.remainingRequests = max 0 ((rule.maxRequests : Int) - (data.count : Int)) ∧
    res.info.retryAfter =
      (if allowed then none else some (intCeilDiv (data.resetTime - now) 1000)) ∧
    res.info.resetTime = data.resetTime ∧
    res.info.totalRequests = data.count ∧
    (allowed = false → data.resetTime = now + rule.windowMs →
      0 < rule.windowMs → now < res.info.resetTime) := by
  refine ⟨rfl, rfl, rfl, rfl, ?_⟩
  intro _ hrt hw
  simp only [buildResult, hrt]
  omega

/-- Witness for C3: a denied result at `now = 5` for a rule with a
1000 ms window carries `retryAfter = 1` and a future `resetTime`. -/
theorem C3_witness :
    (buildResult ⟨3, 1005, 0⟩ ⟨"r", 1000, 2, none, none, none⟩ false 5).info.retryAfter
      = some 1 ∧
    (5 : Int) <
      (buildResult ⟨3, 1005, 0⟩ ⟨"r", 1000, 2, none, none, none⟩ false 5).info.resetTime := by
  have h := C3_buildResult_decision_fields ⟨3, 1005, 0⟩
    ⟨"r", 1000, 2, none, none, none⟩ false 5
  refine ⟨?_, h.2.2.2.2 rfl (by decide) (by decide)⟩
  have h2 := h.2.1
  simp only [if_false, Bool.false_eq_true] at h2
  rw [h2]
  decide

/-- C4: the circuit breaker obeys the specified state machine on every
reachable state: default parameters are threshold 5 and 30 s recovery;
in CLOSED a primary success resets failures and stays CLOSED, a failure
increments failures, records `lastFailureTime = now`, and opens exactly
when failures reach the threshold; while OPEN within the recovery
timeout the primary is skipped, the fallback value is returned, and the
state is unchanged; once the timeout has elapsed the next call attempts
the primary, success closing the breaker and failure reopening it. -/
theorem C4_circuit_breaker_state_machine
    (cb : CircuitBreaker) (h : CBReachable cb) (now : Int) (primaryOk : Bool) :
    CircuitBreaker.initial.failureThreshold = 5 ∧
    CircuitBreaker.initial.recoveryTimeout = 30000 ∧
    (cb.state = .Closed → primaryOk = true →
      (cb.step now primaryOk).1 = .primarySuccess ∧
      (cb.step now primaryOk).2.failures = 0 ∧
      (cb.step now primaryOk).2.state = .Closed) ∧
    (cb.state = .Closed → primaryOk = false →
      (cb.step now primaryOk).1 = .fallbackAfterFailure ∧
      (cb.step now primaryOk).2.failures = cb.failures + 1 ∧
      (cb.step now primaryOk).2.lastFailureTime = now ∧
      (cb.step now primaryOk).2.state =
        (if cb.failureThreshold ≤ cb.failures + 1 then .Open else .Closed)) ∧
    (cb.state = .Open → now - cb.lastFailureTime ≤ cb.recoveryTimeout →
      (cb.step now primaryOk).1 = .fallbackSkip ∧
      (cb.step now primaryOk).2 = cb ∧
      (∀ (α : Type) (pres : Option α) (fb : α),
        (cb.run now pres fb).1 = fb ∧ (cb.run now pres fb).2.2 = cb)) ∧
    (cb.state = .Open → cb.recoveryTimeout < now - cb.lastFailureTime →
      (cb.step now primaryOk).1 ≠ .fallbackSkip ∧
      (primaryOk = true →
        (cb.step now primaryOk).1 = .primarySuccess ∧
        (cb.step now primaryOk).2.state = .Closed ∧
        (cb.step now primaryOk).2.failures = 0) ∧
      (primaryOk = false → (cb.step now primaryOk).2.state = .Open)) := by
  refine ⟨rfl, rfl, ?_, ?_, ?_, ?_⟩
  · intro hst hok
    simp [CircuitBreaker.step, hst, hok, CircuitBreaker.onSuccess]
  · intro hst hok
    simp [CircuitBreaker.step, hst, hok, CircuitBreaker.onFailure]
  · intro hst htime
    have hc : cb.state = CBStatus.Open ∧ ¬ cb.recoveryTimeout < now - cb.lastFailureTime :=
      ⟨hst, by omega⟩
    refine ⟨?_, ?_, ?_⟩
    · simp only [CircuitBreaker.step]
      rw [if_pos hc]
    · simp only [CircuitBreaker.step]
      rw [if_pos hc]
    · intro α pres fb
      simp only [CircuitBreaker.run, CircuitBreaker.step]
      rw [if_pos hc]
      exact ⟨rfl, rfl⟩
  · intro hst htime
    have hthr : cb.failureThreshold ≤ cb.failures := h.open_failures hst
    have hc : ¬ (cb.state = CBStatus.Open ∧ ¬ cb.recoveryTimeout < now - cb.lastFailureTime) := by
      intro hcon
      omega
    refine ⟨?_, ?_, ?_⟩
    · simp only [CircuitBreaker.step]
      rw [if_neg hc, if_pos hst]
      cases hok : primaryOk <;> simp
    · intro hok
      simp only [CircuitBreaker.step]
      rw [if_neg hc, if_pos hst, if_pos hok]
      simp [CircuitBreaker.onSuccess]
    · intro hok
      have hthr1 : cb.failureThreshold ≤ cb.failures + 1 := by omega
      simp only [CircuitBreaker.step]
      rw [if_neg hc, if_pos hst, hok]
      simp [CircuitBreaker.onFailure, hthr1]

/-- Witness for C4: the fresh default breaker on a successful call at
`now = 0` routes to the primary and stays CLOSED with zero failures. -/
theorem C4_witness :
    (CircuitBreaker.initial.step 0 true).1 = ExecRoute.primarySuccess ∧
    (CircuitBreaker.initial.step 0 true).2.state = CBStatus.Closed ∧
    (CircuitBreaker.initial.step 0 true).2.failures = 0 := by
  have h := C4_circuit_breaker_state_machine CircuitBreaker.initial
    (CBReachable.init 5 30000) 0 true
  have hc := h.2.2.1 rfl rfl
  exact ⟨hc.1, hc.2.2, hc.2.1⟩

/-- C5: whenever the circuit breaker routes `checkRateLimit` to the
fallback branch (primary rejected, or breaker OPEN within the recovery
timeout) and the in-memory fallback is disabled, the returned decision
is fail-open: allowed, `totalRequests = 0`,
`remainingRequests = maxRequests`, `resetTime = now + windowMs`, and no
`retryAfter`. -/
theorem C5_fail_open_when_fallback_disabled
    (cb : CircuitBreaker) (zst : ZSetState) (redisOk : Bool)
    (localEntry : Option CacheEntry) (rule : RateLimitRule) (now : Int)
    (requestId : String)
    (hfb : redisOk = false ∨
      (cb.state = .Open ∧ now - cb.lastFailureTime ≤ cb.recoveryTimeout)) :
    (checkRateLimit cb zst redisOk localEntry false rule now requestId).1 =
      ⟨true, ⟨0, (rule.maxRequests : Int), now + rule.windowMs, none⟩, rule⟩ := by
  rcases hfb with hok | ⟨hst, htime⟩
  · subst hok
    simp only [checkRateLimit, if_false, Bool.false_eq_true, Option.isSome_none]
    simp only [CircuitBreaker.step]
    split_ifs <;> simp [buildDefaultResult]
  · have hc : cb.state = CBStatus.Open ∧ ¬ cb.recoveryTimeout < now - cb.lastFailureTime :=
      ⟨hst, by omega⟩
    simp only [checkRateLimit, CircuitBreaker.step]
    rw [if_pos hc]
    simp [buildDefaultResult]

/-- Witness for C5: an OPEN breaker one millisecond after its last
failure yields the fail-open decision for a 1000 ms, limit-7 rule. -/
theorem C5_witness :
    (checkRateLimit ⟨5, 0, .Open, 5, 30000⟩ ⟨[], none⟩ true none false
        ⟨"r", 1000, 7, none, none, none⟩ 1 "t").1 =
      ⟨true, ⟨0, 7, 1001, none⟩, ⟨"r", 1000, 7, none, none, none⟩⟩ :=
  C5_fail_open_when_fallback_disabled ⟨5, 0, .Open, 5, 30000⟩ ⟨[], none⟩ true none
    ⟨"r", 1000, 7, none, none, none⟩ 1 "t" (Or.inr ⟨rfl, by decide⟩)

/-- C7 counterexample: with a fixed-algorithm rule of limit 1, a live
stored entry already at the limit, and an arrival at `now = 600`, the
distributed fixed-window path denies without incrementing (stored and
returned count 1) while the in-memory fallback increments the stored
count to 2 and returns count 2 — so the two implementations do not
return equal `(count, allowed, resetTime)` and the fallback does not
deny "without incrementing the stored count". -/
theorem C7_counterexample :
    (checkRateLimitInMemory (some ⟨1, 1000, 500⟩)
        ⟨"f", 1000, 1, none, none, some .fixed⟩ 600).2.count = 2 ∧
    (incrementCounterFixedWindow (some ⟨1, 1000, 500⟩)
        ⟨"f", 1000, 1, none, none, some .fixed⟩ 600).2.1.count = 1 ∧
    (checkRateLimitInMemory (some ⟨1, 1000, 500⟩)
          ⟨"f", 1000, 1, none, none, some .fixed⟩ 600).1.info.totalRequests ≠
      (incrementCounterFixedWindow (some ⟨1, 1000, 500⟩)
          ⟨"f", 1000, 1, none, none, some .fixed⟩ 600).1.count := by
  refine ⟨rfl, rfl, ?_⟩
  decide

/-- C7 amended: for non-sliding rules with a positive limit the
in-memory fallback agrees with the distributed fixed-window path on
returned count, admission, reset time and stored entry whenever the
prior record is absent, expired, or strictly below the limit; once the
stored count reaches the limit the fallback keeps incrementing (denying
via `count ≤ maxRequests`) while the fixed path denies without
incrementing, and for sliding-algorithm rules the fallback's fresh
`resetTime` is `now + windowMs` instead of the aligned window end. -/
theorem C7_amended_fallback_agreement
    (existing : Option CacheEntry) (rule : RateLimitRule) (now : Int)
    (halg : rule.algorithm ≠ some .sliding) (hmax : 0 < rule.maxRequests)
    (hbelow : ∀ e, existing = some e → e.resetTime ≤ now ∨ e.count < rule.maxRequests) :
    (checkRateLimitInMemory existing rule now).1.info.totalRequests =
      (incrementCounterFixedWindow existing rule now).1.count ∧
    (checkRateLimitInMemory existing rule now).1.allowed =
      (incrementCounterFixedWindow existing rule now).1.allowed ∧
    (checkRateLimitInMemory existing rule now).1.info.resetTime =
      (incrementCounterFixedWindow existing rule now).1.resetTime ∧
    (checkRateLimitInMemory existing rule now).2 =
      (incrementCounterFixedWindow existing rule now).2.1 := by
  have hm1 : (decide (1 ≤ rule.maxRequests)) = true := by
    simp; omega
  cases existing with
  | none =>
    simp only [checkRateLimitInMemory, incrementCounterFixedWindow, buildResult]
    rw [if_neg halg]
    have hle : ¬ rule.maxRequests ≤ 0 := by omega
    simp [hle, hm1]
  | some e =>
    by_cases hexp : e.resetTime ≤ now
    · simp only [checkRateLimitInMemory, incrementCounterFixedWindow, buildResult]
      rw [if_neg halg]
      have hle : ¬ rule.maxRequests ≤ 0 := by omega
      simp [hexp, hle, hm1]
    · have hlow : e.count < rule.maxRequests := by
        rcases hbelow e rfl with h | h
        · exact absurd h hexp
        · exact h
      simp only [checkRateLimitInMemory, incrementCounterFixedWindow, buildResult]
      have hle : ¬ rule.maxRequests ≤ e.count := by omega
      have hsucc : (decide (e.count + 1 ≤ rule.maxRequests)) = true := by
        simp; omega
      simp [hexp, hle, hsucc]

/-- Witness for C7's amended statement: a first arrival on an empty
store at `now = 600` under a fixed 1000 ms, limit-1 rule agrees across
both implementations. -/
theorem C7_witness :
    ((⟨"f", 1000, 1, none, none, some .fixed⟩ : RateLimitRule).algorithm
        ≠ some Algorithm.sliding) ∧
    (checkRateLimitInMemory none ⟨"f", 1000, 1, none, none, some .fixed⟩ 600).2 =
      (incrementCounterFixedWindow none ⟨"f", 1000, 1, none, none, some .fixed⟩ 600).2.1 := by
  refine ⟨by decide, ?_⟩
  exact (C7_amended_fallback_agreement none ⟨"f", 1000, 1, none, none, some .fixed⟩ 600
    (by decide) (by decide) (fun e he => by cases he)).2.2.2

/-- Lists followed by a separator not occurring in either prefix can be
cancelled at the separator. -/
theorem sep_append_inj {c : Char} {a1 : List Char} :
    ∀ {a2 t1 t2 : List Char}, c ∉ a1 → c ∉ a2 →
      a1 ++ c :: t1 = a2 ++ c :: t2 → a1 = a2 := by
  induction a1 with
  | nil =>
    intro a2 t1 t2 _ h2 he
    cases a2 with
    | nil => rfl
    | cons b bs =>
      simp only [List.nil_append, List.cons_append, List.cons.injEq] at he
      exact absurd (he.1 ▸ List.mem_cons_self b bs) h2
  | cons a as ih =>
    intro a2 t1 t2 h1 h2 he
    cases a2 with
    | nil =>
      simp only [List.cons_append, List.nil_append, List.cons.injEq] at he
      exact absurd (he.1 ▸ List.mem_cons_self a as) h1
    | cons b bs =>
      simp only [List.cons_append, List.cons.injEq] at he
      have := ih (fun hm => h1 (List.mem_cons_of_mem a hm))
        (fun hm => h2 (List.mem_cons_of_mem b hm)) he.2
      rw [he.1, this]

/-- C6 counterexample: the two distinct rule configurations
`(id "a", window 11, max 1)` and `(id "a", window 1, max 11)` produce
the same rate-limit key for every identifier (here `"c"`), because the
digest input is string concatenation `id + windowMs + maxRequests` and
both concatenate to `"a111"`. -/
theorem C6_counterexample :
    (⟨"a", 11, 1, none, none, none⟩ : RateLimitRule) ≠
      ⟨"a", 1, 11, none, none, none⟩ ∧
    generateRateLimitKey "c" ⟨"a", 11, 1, none, none, none⟩ =
      generateRateLimitKey "c" ⟨"a", 1, 11, none, none, none⟩ := by
  constructor
  · decide
  · rfl

/-- C6 amended: for a fixed identifier, two rules with the same id map
to the same key exactly when their digests
`hashString(id + windowMs + maxRequests)` coincide — the digest input is
string concatenation, so distinct `(windowMs, maxRequests)` pairs whose
concatenations agree (or whose 32-bit hashes collide) reuse the same
key; rules whose ids differ (ids being colon-free) always get distinct
keys. -/
theorem C6_amended_key_distinctness (i : String) (r1 r2 : RateLimitRule) :
    (r1.id = r2.id →
      (generateRateLimitKey i r1 = generateRateLimitKey i r2 ↔
        hashString (hashInputString r1) = hashString (hashInputString r2))) ∧
    (':' ∉ r1.id.data → ':' ∉ r2.id.data → r1.id ≠ r2.id →
      generateRateLimitKey i r1 ≠ generateRateLimitKey i r2) := by
  constructor
  · intro hid
    constructor
    · intro hkey
      have hd := congrArg String.data hkey
      simp only [generateRateLimitKey, String.data_append, hid] at hd
      have hd2 := List.append_cancel_right hd
      have hd3 := List.append_cancel_right hd2
      exact String.ext (List.append_cancel_left hd3)
    · intro hh
      simp only [generateRateLimitKey, hid, hh]
  · intro h1 h2 hne hkey
    have hd := congrArg String.data hkey
    simp only [generateRateLimitKey, String.data_append, List.append_assoc,
      List.singleton_append] at hd
    have hd2 := List.append_cancel_left hd
    exact hne (String.ext (sep_append_inj h1 h2 hd2))

/-- Witness for C6's amended statement: same id `a` with windows/limits
`(11, 2)` versus `(1, 11)` digest to different strings, so their keys
differ; and the colon-free ids `a` and `b` always give distinct keys. -/
theorem C6_witness :
    generateRateLimitKey "c" ⟨"a", 11, 2, none, none, none⟩ ≠
      generateRateLimitKey "c" ⟨"a", 1, 11, none, none, none⟩ ∧
    generateRateLimitKey "c" ⟨"b", 1, 1, none, none, none⟩ ≠
      generateRateLimitKey "c" ⟨"a", 1, 1, none, none, none⟩ := by
  constructor
  · intro hkey
    have h := ((C6_amended_key_distinctness "c" ⟨"a", 11, 2, none, none, none⟩
        ⟨"a", 1, 11, none, none, none⟩).1 rfl).1 hkey
    revert h
    decide
  · exact (C6_amended_key_distinctness "c" ⟨"b", 1, 1, none, none, none⟩
      ⟨"a", 1, 1, none, none, none⟩).2 (by decide) (by decide) (by decide)

/-- Decimal digit characters produced by `Nat.digitChar` below 10. -/
theorem digitChar_isDigit_of_lt (m : Nat) (hm : m < 10) :
    (Nat.digitChar m).isDigit = true := by
  interval_cases m <;> decide

/-- Every character accumulated by `Nat.toDigitsCore` in base 10 is a
decimal digit, provided the seed accumulator only holds digits. -/
theorem toDigitsCore_isDigit (fuel : Nat) :
    ∀ (n : Nat) (ds : List Char), (∀ c ∈ ds, c.isDigit = true) →
      ∀ c ∈ Nat.toDigitsCore 10 fuel n ds, c.isDigit = true := by
  induction fuel with
  | zero =>
    intro n ds hds c hc
    simp only [Nat.toDigitsCore] at hc
    exact hds c hc
  | succ fuel ih =>
    intro n ds hds c hc
    simp only [Nat.toDigitsCore] at hc
    have hd : (Nat.digitChar (n % 10)).isDigit = true :=
      digitChar_isDigit_of_lt _ (Nat.mod_lt _ (by decide))
    by_cases h0 : n / 10 = 0
    · rw [if_pos h0] at hc
      rcases List.mem_cons.mp hc with rfl | hc
      · exact hd
      · exact hds c hc
    · rw [if_neg h0] at hc
      refine ih _ _ ?_ c hc
      intro c' hc'
      rcases List.mem_cons.mp hc' with rfl | hc'
      · exact hd
      · exact hds c' hc'

/-- Every character of `Nat.repr` is a decimal digit. -/
theorem natRepr_isDigit (n : Nat) : ∀ c ∈ (Nat.repr n).data, c.isDigit = true := by
  intro c hc
  have hrw : (Nat.repr n).data = Nat.toDigitsCore 10 (n + 1) n [] := rfl
  rw [hrw] at hc
  exact toDigitsCore_isDigit (n + 1) n [] (by simp) c hc

/-- Decimal digit characters are not in the stripped control class. -/
theorem isDigit_not_control {c : Char} (h : c.isDigit = true) :
    isJsControl c = false := by
  simp only [Char.isDigit, Bool.and_eq_true, decide_eq_true_eq] at h
  simp only [isJsControl, Char.toNat, Bool.or_eq_false_iff, Bool.and_eq_false_iff,
    decide_eq_false_iff_not, not_le]
  obtain ⟨h1, h2⟩ := h
  have h1' : 48 ≤ c.val.toNat := h1
  have h2' : c.val.toNat ≤ 57 := h2
  omega

/-- Characters surviving strip-and-truncate are never control class. -/
theorem truncStrip_not_control (s : String) :
    ∀ c ∈ (truncate45 (stripControl s)).data, isJsControl c = false := by
  intro c hc
  have hc' : c ∈ (stripControl s).data := List.take_subset 45 _ hc
  simp only [stripControl] at hc'
  have := (List.mem_filter.mp hc').2
  simpa using this

/-- Strip-and-truncate leaves at most 45 characters. -/
theorem truncStrip_length (s : String) :
    (truncate45 (stripControl s)).length ≤ 45 := by
  show (List.take 45 (stripControl s).data).length ≤ 45
  exact List.length_take_le 45 _

/-- `sanitizeIpAddress` output characters are never control class. -/
theorem sanitize_not_control (s : String) :
    ∀ c ∈ (sanitizeIpAddress s).data, isJsControl c = false := by
  simp only [sanitizeIpAddress]
  split_ifs with h1 h2
  · exact truncStrip_not_control s
  · decide
  · exact truncStrip_not_control s

/-- `sanitizeIpAddress` output has at most 45 characters. -/
theorem sanitize_length (s : String) : (sanitizeIpAddress s).length ≤ 45 := by
  simp only [sanitizeIpAddress]
  split_ifs with h1 h2
  · exact truncStrip_length s
  · decide
  · exact truncStrip_length s

/-- Identifiers made only of kept characters pass the key sanitiser
unchanged. -/
theorem sanitizeKeyIdentifier_eq_self (i : String)
    (h : ∀ c ∈ i.data, isKeyAllowed c = true) : sanitizeKeyIdentifier i = i := by
  apply String.ext
  show i.data.map _ = i.data
  have hcongr : ∀ a ∈ i.data, (if isKeyAllowed a then a else '_') = id a :=
    fun a ha => by rw [if_pos (h a ha)]; rfl
  rw [List.map_congr_left hcongr, List.map_id]

/-- C8 counterexample: a forwarded-for header holding the literal string
`unknown` yields the identifier `unknown` although the string is not
empty after stripping; and the remote-address path with a known peer
port can exceed 45 characters (50-character address plus `:12345`). -/
theorem C8_counterexample :
    getClientIdentifier reqUnknownHeader = "unknown" ∧
    truncate45 (stripControl (jsTrim (firstCommaPart "unknown"))) ≠ "" ∧
    45 < (getClientIdentifier reqLongAddr).length := by
  refine ⟨by decide, by decide, by decide⟩

/-- The remote-address tail of `getClientIdentifier` (loopback or
port-suffixed) never emits control characters. -/
theorem tail_branch_not_control (raw : String) (port : Option Nat) :
    ∀ c ∈ ((if sanitizeIpAddress raw = "::1" ∨ sanitizeIpAddress raw = "127.0.0.1" ∨
          sanitizeIpAddress raw = "localhost" then sanitizeIpAddress raw
        else
          match port with
          | some p =>
              if p ≠ 0 then sanitizeIpAddress raw ++ ":" ++ toString p
              else sanitizeIpAddress raw
          | none => sanitizeIpAddress raw) : String).data,
      isJsControl c = false := by
  intro c hc
  split_ifs at hc with hP
  · exact sanitize_not_control _ c hc
  · cases port with
    | none => exact sanitize_not_control _ c hc
    | some p =>
      dsimp only at hc
      by_cases h0 : p ≠ 0
      · rw [if_pos h0] at hc
        simp only [String.data_append] at hc
        rcases List.mem_append.mp hc with hc1 | hc2
        · rcases List.mem_append.mp hc1 with hca | hcb
          · exact sanitize_not_control _ c hca
          · have hcol : c = ':' := by simpa using hcb
            rw [hcol]; decide
        · exact isDigit_not_control (natRepr_isDigit p c hc2)
      · rw [if_neg h0] at hc
        exact sanitize_not_control _ c hc

/-- The extracted client identifier never contains control characters,
whichever branch of the extractor produced it. -/
theorem getClientIdentifier_not_control (req : Req) :
    ∀ c ∈ (getClientIdentifier req).data, isJsControl c = false := by
  unfold getClientIdentifier
  cases jsTruthy req.forwarded with
  | some f => exact sanitize_not_control _
  | none =>
  cases jsTruthy req.realIp with
  | some r => exact sanitize_not_control _
  | none =>
  cases jsTruthy req.clientIp with
  | some c => exact sanitize_not_control _
  | none =>
  cases jsTruthy req.cfConnectingIp with
  | some c => exact sanitize_not_control _
  | none => exact tail_branch_not_control _ req.remotePort

/-- Identifiers extracted from any of the four proxy headers are at most
45 characters long. -/
theorem getClientIdentifier_header_length (req : Req)
    (h : ((jsTruthy req.forwarded).isSome || (jsTruthy req.realIp).isSome ||
      (jsTruthy req.clientIp).isSome || (jsTruthy req.cfConnectingIp).isSome) = true) :
    (getClientIdentifier req).length ≤ 45 := by
  unfold getClientIdentifier
  cases hf : jsTruthy req.forwarded with
  | some f => exact sanitize_length _
  | none =>
  cases hr : jsTruthy req.realIp with
  | some r => exact sanitize_length _
  | none =>
  cases hci : jsTruthy req.clientIp with
  | some c => exact sanitize_length _
  | none =>
  cases hcf : jsTruthy req.cfConnectingIp with
  | some c => exact sanitize_length _
  | none =>
    rw [hf, hr, hci, hcf] at h
    simp at h

/-- C8 amended: the extracted identifier never contains control
characters; identifiers produced from the proxy headers are at most 45
characters (the port-suffixed remote-address path can exceed 45); a
string empty after stripping and truncation maps to `unknown` (although
a literal `unknown` input maps to the same value); the sanitised key
segment only holds `[A-Za-z0-9._-]`; and two distinct identifiers made
of kept characters — IPv4 literals in particular — always yield
distinct keys for the same rule. -/
theorem C8_amended_identifier_sanitisation :
    (∀ s, (sanitizeIpAddress s).length ≤ 45) ∧
    (∀ s, ∀ c ∈ (sanitizeIpAddress s).data, isJsControl c = false) ∧
    (∀ s, truncate45 (stripControl s) = "" → sanitizeIpAddress s = "unknown") ∧
    (∀ req, ∀ c ∈ (getClientIdentifier req).data, isJsControl c = false) ∧
    (∀ req, ((jsTruthy req.forwarded).isSome || (jsTruthy req.realIp).isSome ||
        (jsTruthy req.clientIp).isSome || (jsTruthy req.cfConnectingIp).isSome) = true →
      (getClientIdentifier req).length ≤ 45) ∧
    (∀ i, ∀ c ∈ (sanitizeKeyIdentifier i).data, isKeyAllowed c = true) ∧
    (∀ rule i1 i2, (∀ c ∈ i1.data, isKeyAllowed c = true) →
      (∀ c ∈ i2.data, isKeyAllowed c = true) → i1 ≠ i2 →
      generateRateLimitKey i1 rule ≠ generateRateLimitKey i2 rule) := by
  refine ⟨sanitize_length, sanitize_not_control, ?_,
    getClientIdentifier_not_control, getClientIdentifier_header_length, ?_, ?_⟩
  · intro s h
    simp only [sanitizeIpAddress]
    rw [h]
    decide
  · intro i c hc
    have hc' : c ∈ i.data.map (fun a => if isKeyAllowed a then a else '_') := hc
    obtain ⟨a, ha, rfl⟩ := List.mem_map.mp hc'
    by_cases hA : isKeyAllowed a = true
    · rw [if_pos hA]; exact hA
    · rw [if_neg hA]; decide
  · intro rule i1 i2 h1 h2 hne hkey
    apply hne
    have hd := congrArg String.data hkey
    simp only [generateRateLimitKey, sanitizeKeyIdentifier_eq_self i1 h1,
      sanitizeKeyIdentifier_eq_self i2 h2, String.data_append] at hd
    exact String.ext (List.append_cancel_left hd)

/-- Witness for C8's amended statement: the keys of the IPv4 literals
`1.2.3.4` and `1.2.3.5` differ for the same rule, and a pure
control-character input maps to the `unknown` identifier. -/
theorem C8_witness :
    generateRateLimitKey "1.2.3.4" ⟨"r", 1000, 5, none, none, none⟩ ≠
      generateRateLimitKey "1.2.3.5" ⟨"r", 1000, 5, none, none, none⟩ ∧
    sanitizeIpAddress "\x01\x02" = "unknown" :=
  ⟨C8_amended_identifier_sanitisation.2.2.2.2.2.2 ⟨"r", 1000, 5, none, none, none⟩
      "1.2.3.4" "1.2.3.5" (by decide) (by decide) (by decide),
    C8_amended_identifier_sanitisation.2.2.1 "\x01\x02" (by decide)⟩

/-- C10 counterexample: the empty string is a `ruleId` that equals no
configured rule's id, yet `if (ruleId)` is falsy on it, so the source
takes the reset-all branch and deletes every configured rule's key from
the distributed store and the local cache — refuting "deletes no key"
within the claim's own quantification.  Here the one configured rule's
key for identifier `x` is populated in both tiers and both entries are
deleted. -/
theorem C10_counterexample :
    (∀ r ∈ [(⟨"a", 1000, 5, none, none, none⟩ : RateLimitRule)], r.id ≠ "") ∧
    (middlewareResetRateLimit [⟨"a", 1000, 5, none, none, none⟩] "x" (some "")
        ⟨[(generateRateLimitKey "x" ⟨"a", 1000, 5, none, none, none⟩, ⟨[("m", 3)], some 1⟩)],
         [(generateRateLimitKey "x" ⟨"a", 1000, 5, none, none, none⟩, ⟨1, 2, 3⟩)],
         [("x", 7)]⟩).redis = [] ∧
    (middlewareResetRateLimit [⟨"a", 1000, 5, none, none, none⟩] "x" (some "")
        ⟨[(generateRateLimitKey "x" ⟨"a", 1000, 5, none, none, none⟩, ⟨[("m", 3)], some 1⟩)],
         [(generateRateLimitKey "x" ⟨"a", 1000, 5, none, none, none⟩, ⟨1, 2, 3⟩)],
         [("x", 7)]⟩).localCache = [] := by
  refine ⟨by decide, by decide, by decide⟩

/-- C10 amended: for every truthy (non-empty) `ruleId` string that
equals no configured rule's id, the reset deletes no key from the
distributed store and no entry from the local cache and completes
normally, yet still removes the identifier's throttle-map entry; an
empty `ruleId` is falsy and instead takes the reset-all branch,
deleting every configured rule's key. -/
theorem C10_reset_unknown_rule_frame
    (rules : List RateLimitRule) (identifier rid : String) (st : SystemState)
    (hne : rid ≠ "") (h : ∀ r ∈ rules, r.id ≠ rid) :
    middlewareResetRateLimit rules identifier (some rid) st =
      { st with throttle := st.throttle.filter (fun e => e.1 != identifier) } := by
  have hf : rules.find? (fun (r : RateLimitRule) => r.id == rid) = none := by
    rw [List.find?_eq_none]
    intro r hr
    simpa using h r hr
  simp [middlewareResetRateLimit, jsTruthy, hne, hf]

/-- Witness for C10's amended statement: one configured rule `a`, reset
requested for the unknown non-empty rule id `b`: the store and local
cache survive and only the `x` throttle entry disappears. -/
theorem C10_witness :
    middlewareResetRateLimit [⟨"a", 1000, 5, none, none, none⟩] "x" (some "b")
        ⟨[("k", ⟨[("m", 3)], some 1⟩)], [("c", ⟨1, 2, 3⟩)], [("x", 7), ("y", 8)]⟩ =
      ⟨[("k", ⟨[("m", 3)], some 1⟩)], [("c", ⟨1, 2, 3⟩)], [("y", 8)]⟩ :=
  (C10_reset_unknown_rule_frame [⟨"a", 1000, 5, none, none, none⟩] "x" "b"
      ⟨[("k", ⟨[("m", 3)], some 1⟩)], [("c", ⟨1, 2, 3⟩)], [("x", 7), ("y", 8)]⟩
      (by decide)
      (by intro r hr; simp at hr; rw [hr]; decide)).trans (by decide)

end RateLimiter
